import Mathlib

/-!
Verification of the Japanese PII recognizers in
`src/presidio_pii_masking/custom_recognizers.py`.

Texts are modelled as `List Char` (Python string indexing is by character).
Confidence scores are modelled as rationals; the Python float literals used by
the code (0.6 … 0.95) and the comparisons performed on them are exact at these
values.  Fallible code (attribute access on `None`) is modelled with `Except`.
-/

/-- Mirror of presidio's `RecognizerResult` as constructed by this repository:
`entity_type`, `start`, `end`, `score`, and the `recognition_metadata` fields
`source` and `entity_value` (the stored matched text). `end` is called `stop`
because `end` is a keyword. -/
structure RecognizerResult where
  entityType : String
  start : Nat
  stop : Nat
  score : ℚ
  source : String
  entityValue : List Char
  deriving DecidableEq, Repr

/-- One entity span of presidio's `NlpArtifacts` (spaCy output): `label_`,
`start_char`, `end_char`. -/
structure NlpEntity where
  label : String
  startChar : Nat
  endChar : Nat
  deriving DecidableEq, Repr

/-- Mirror of the `NlpArtifacts` input consumed by the recognizers. -/
structure NlpArtifacts where
  entities : List NlpEntity
  deriving DecidableEq, Repr

/-- Python exceptions that the embedded code can raise. -/
inductive PyErr where
  | attributeError
  deriving DecidableEq, Repr

/-- Python slice `text[i:j]` for `0 ≤ i ≤ j` (out-of-range indices clamp). -/
def pySlice (cs : List Char) (i j : Nat) : List Char :=
  (cs.take j).drop i

/-- Code points of the characters stripped by Python's `str.strip()`
(Unicode whitespace). -/
def pySpaceCodes : List Nat :=
  [0x09, 0x0a, 0x0b, 0x0c, 0x0d, 0x1c, 0x1d, 0x1e, 0x1f, 0x20, 0x85, 0xa0,
   0x1680, 0x2000, 0x2001, 0x2002, 0x2003, 0x2004, 0x2005, 0x2006, 0x2007,
   0x2008, 0x2009, 0x200a, 0x2028, 0x2029, 0x202f, 0x205f, 0x3000]

/-- Python's whitespace test (used both for `str.strip()` and for the regex
class `\s`). -/
def pyIsSpace (c : Char) : Bool :=
  pySpaceCodes.contains c.toNat

/-- Python `str.strip()`: remove leading and trailing whitespace. -/
def pyStrip (cs : List Char) : List Char :=
  ((cs.dropWhile pyIsSpace).reverse.dropWhile pyIsSpace).reverse

/-- All indices `i` at which `pat` occurs in `cs` (Python substring search). -/
def allOccurrences (pat cs : List Char) : List Nat :=
  (List.range (cs.length + 1)).filter (fun i => pat.isPrefixOf (cs.drop i))

/-- Python `pat in cs` (substring containment). -/
def occursIn (pat cs : List Char) : Bool :=
  !(allOccurrences pat cs).isEmpty

/-- Python `cs.rfind(pat)`: index of the last occurrence, if any. -/
def rfindLit (pat cs : List Char) : Option Nat :=
  (allOccurrences pat cs).getLast?

/-- Convert string literals to character lists. -/
def strList (l : List String) : List (List Char) :=
  l.map (fun s => s.data)

/-! ### Overlap resolution (`JapaneseAddressRecognizer._remove_overlapping_results`) -/

/-- Python `overlap_length = min(result.end, existing.end) - max(result.start, existing.start)`
(computed in ℤ: Python ints may go negative here). -/
def overlapLen (r e : RecognizerResult) : ℤ :=
  (min r.stop e.stop : ℤ) - (max r.start e.start : ℤ)

/-- Python `result_length = result.end - result.start` in ℤ. -/
def resultLen (r : RecognizerResult) : ℤ :=
  (r.stop : ℤ) - (r.start : ℤ)

/-- The three checks of the inner loop of `_remove_overlapping_results`, in
source order: exact duplicate span, containment of the candidate `r` in the
accepted `e`, or overlap ratio (relative to the candidate's length) above 0.8.
Python's `overlap_length > 0 and overlap_length / result_length > 0.8`
short-circuits, so the division is never taken at `result_length = 0`; the
total rational division used here agrees on every reachable case. -/
def conflictsWith (r e : RecognizerResult) : Bool :=
  decide ((r.start = e.start ∧ r.stop = e.stop) ∨
    (e.start ≤ r.start ∧ r.stop ≤ e.stop) ∨
    (0 < overlapLen r e ∧
      (4 : ℚ) / 5 < (overlapLen r e : ℚ) / (resultLen r : ℚ)))

/-- The greedy walk of `_remove_overlapping_results`: `acc` is
`filtered_results`; a candidate conflicting with any accepted result is
dropped, otherwise appended. -/
def acceptResults (acc : List RecognizerResult) :
    List RecognizerResult → List RecognizerResult
  | [] => acc
  | r :: rs =>
    if acc.any (fun e => conflictsWith r e) then acceptResults acc rs
    else acceptResults (acc ++ [r]) rs

/-- Sort key comparison for `sorted(results, key=lambda x: (-x.score, x.start))`:
`a` may precede `b` iff its key tuple is `≤` lexicographically. Python's sort
is stable, as is `List.mergeSort`. -/
def sortLE (a b : RecognizerResult) : Bool :=
  decide (b.score < a.score ∨ (a.score = b.score ∧ a.start ≤ b.start))

/-- Mirror of `JapaneseAddressRecognizer._remove_overlapping_results`. -/
def removeOverlappingResults (results : List RecognizerResult) :
    List RecognizerResult :=
  if results.isEmpty then results
  else acceptResults [] (results.mergeSort sortLE)

/-! #### Lemmas about the overlap-resolution walk -/

/-- Predicate `noConf e r`: the later-accepted `r` does not conflict with the
earlier-accepted `e`. -/
def noConf (e r : RecognizerResult) : Prop :=
  conflictsWith r e = false

theorem acceptResults_append (l : List RecognizerResult) :
    ∀ acc, ∃ t, acceptResults acc l = acc ++ t ∧ t.Sublist l := by
  induction l with
  | nil => intro acc; exact ⟨[], by simp [acceptResults]⟩
  | cons r rs ih =>
    intro acc
    by_cases h : acc.any (fun e => conflictsWith r e)
    · obtain ⟨t, ht, hs⟩ := ih acc
      exact ⟨t, by simp [acceptResults, h, ht], hs.cons r⟩
    · obtain ⟨t, ht, hs⟩ := ih (acc ++ [r])
      refine ⟨r :: t, ?_, hs.cons₂ r⟩
      simp only [acceptResults, h, if_false]
      rw [ht]; simp

theorem acceptResults_pairwise (l : List RecognizerResult) :
    ∀ acc, acc.Pairwise noConf → (acceptResults acc l).Pairwise noConf := by
  induction l with
  | nil => intro acc h; exact h
  | cons r rs ih =>
    intro acc hacc
    by_cases h : acc.any (fun e => conflictsWith r e)
    · simpa [acceptResults, h] using ih acc hacc
    · simp only [acceptResults, h, if_false]
      refine ih (acc ++ [r]) ?_
      rw [List.pairwise_append]
      refine ⟨hacc, List.pairwise_singleton _ _, ?_⟩
      intro a ha b hb
      rw [List.mem_singleton] at hb
      subst hb
      have := List.any_eq_true.not.mp (by simpa using h)
      push_neg at this
      have h2 := this a ha
      simpa [noConf] using h2

theorem acceptResults_of_pairwise (l : List RecognizerResult) :
    ∀ acc, (acc ++ l).Pairwise noConf → acceptResults acc l = acc ++ l := by
  induction l with
  | nil => intro acc _; simp [acceptResults]
  | cons r rs ih =>
    intro acc hp
    have hnc : ∀ e ∈ acc, conflictsWith r e = false := by
      intro e he
      have := (List.pairwise_append.mp hp).2.2 e he r (by simp)
      simpa [noConf] using this
    have hany : acc.any (fun e => conflictsWith r e) = false := by
      rw [List.any_eq_false]
      intro e he
      simp [hnc e he]
    simp only [acceptResults, hany, Bool.false_eq_true, if_false]
    have : ((acc ++ [r]) ++ rs).Pairwise noConf := by
      simpa using hp
    rw [ih (acc ++ [r]) this]
    simp

theorem sortLE_total (a b : RecognizerResult) : sortLE a b || sortLE b a := by
  simp only [sortLE, Bool.or_eq_true, decide_eq_true_eq]
  rcases lt_trichotomy a.score b.score with h | h | h
  · right; left; exact h
  · rcases Nat.le_total a.start b.start with h2 | h2
    · left; right; exact ⟨h, h2⟩
    · right; right; exact ⟨h.symm, h2⟩
  · left; left; exact h

theorem sortLE_trans (a b c : RecognizerResult) :
    sortLE a b → sortLE b c → sortLE a c := by
  simp only [sortLE, decide_eq_true_eq]
  rintro (hab | ⟨hab, hab2⟩) (hbc | ⟨hbc, hbc2⟩)
  · left; exact hbc.trans hab
  · left; exact hbc ▸ hab
  · left; exact hab ▸ hbc
  · right; exact ⟨hab.trans hbc, hab2.trans hbc2⟩

theorem removeOverlappingResults_pairwise (l : List RecognizerResult) :
    (removeOverlappingResults l).Pairwise noConf := by
  unfold removeOverlappingResults
  split
  · next h => simp [List.isEmpty_iff.mp h]
  · exact acceptResults_pairwise _ [] List.Pairwise.nil

theorem removeOverlappingResults_sorted (l : List RecognizerResult) :
    (removeOverlappingResults l).Pairwise (fun a b => sortLE a b = true) := by
  unfold removeOverlappingResults
  split
  · next h => simp [List.isEmpty_iff.mp h]
  · obtain ⟨t, ht, hs⟩ := acceptResults_append (l.mergeSort sortLE) []
    rw [ht]
    simp only [List.nil_append]
    exact (List.sorted_mergeSort sortLE_trans sortLE_total l).sublist hs

theorem removeOverlappingResults_fixed (m : List RecognizerResult)
    (h1 : m.Pairwise noConf) (h2 : m.Pairwise (fun a b => sortLE a b = true)) :
    removeOverlappingResults m = m := by
  unfold removeOverlappingResults
  split
  · rfl
  · rw [List.mergeSort_of_sorted h2]
    simpa using acceptResults_of_pairwise m [] (by simpa using h1)

/-- C4: the address overlap-resolution step is idempotent. -/
theorem address_overlap_resolution_idempotent (l : List RecognizerResult) :
    removeOverlappingResults (removeOverlappingResults l) =
      removeOverlappingResults l :=
  removeOverlappingResults_fixed _ (removeOverlappingResults_pairwise l)
    (removeOverlappingResults_sorted l)



/-! #### Score literals

The Python float score literals, as rationals in lowest terms (constructor
form, so that comparisons reduce by computation). -/

/-- Score literal 0.75. -/
def score075 : ℚ := ⟨3, 4, by norm_num, by decide⟩

/-- Score literal 0.8. -/
def score080 : ℚ := ⟨4, 5, by norm_num, by decide⟩

/-- Score literal 0.85. -/
def score085 : ℚ := ⟨17, 20, by norm_num, by decide⟩

/-- Score literal 0.9. -/
def score090 : ℚ := ⟨9, 10, by norm_num, by decide⟩

/-- Score literal 0.95. -/
def score095 : ℚ := ⟨19, 20, by norm_num, by decide⟩

theorem score_literals_eq :
    score075 = 75/100 ∧ score080 = 80/100 ∧ score085 = 85/100 ∧
      score090 = 90/100 ∧ score095 = 95/100 := by
  refine ⟨?_, ?_, ?_, ?_, ?_⟩ <;>
    · simp only [score075, score080, score085, score090, score095,
        Rat.mk'_eq_divInt, Rat.divInt_eq_div]
      norm_num

/-! #### C1 -/

theorem noConf_semantic (e r : RecognizerResult) (h : noConf e r) :
    ¬(r.start = e.start ∧ r.stop = e.stop) ∧
      ¬(e.start ≤ r.start ∧ r.stop ≤ e.stop) ∧
      ¬(0 < overlapLen r e ∧
        (4 : ℚ) / 5 < (overlapLen r e : ℚ) / (resultLen r : ℚ)) := by
  unfold noConf conflictsWith at h
  rw [decide_eq_false_iff_not, not_or, not_or] at h
  exact h

/-- C1 (amended): after the address recognizer's overlap resolution, for every
earlier-accepted result `e` and later-accepted result `r`, none of the three
source checks holds of the ordered pair: the spans are not equal, `r` is not
contained in `e` (the converse containment is not checked by the code), and
the overlap ratio relative to `r`'s own length (not the shorter span's) is not
above 4/5. -/
theorem address_overlap_resolution_invariant (l : List RecognizerResult) :
    (removeOverlappingResults l).Pairwise (fun e r =>
      ¬(r.start = e.start ∧ r.stop = e.stop) ∧
      ¬(e.start ≤ r.start ∧ r.stop ≤ e.stop) ∧
      ¬(0 < overlapLen r e ∧
        (4 : ℚ) / 5 < (overlapLen r e : ℚ) / (resultLen r : ℚ))) :=
  (removeOverlappingResults_pairwise l).imp
    (fun h => noConf_semantic _ _ h)

/-- A high-scoring short result that a later, longer, lower-scoring candidate
fully contains. -/
def cexShort : RecognizerResult :=
  ⟨"ADDRESS", 2, 4, score090, "context_pattern", []⟩

/-- The longer containing candidate: its overlap with `cexShort` is 2 of its
own length 10, below the 0.8 drop threshold, so it is accepted. -/
def cexLong : RecognizerResult :=
  ⟨"ADDRESS", 0, 10, score080, "pattern_matching", []⟩

theorem cexLong_no_conflict : conflictsWith cexLong cexShort = false := by
  rw [conflictsWith, decide_eq_false_iff_not, not_or, not_or]
  refine ⟨by decide, by decide, ?_⟩
  rintro ⟨-, hratio⟩
  have h2 : overlapLen cexLong cexShort = 2 := by decide
  have h10 : resultLen cexLong = 10 := by decide
  rw [h2, h10] at hratio
  norm_num at hratio

/-- C1 (counterexample): on the candidate list `[cexShort, cexLong]` the
resolution keeps both results, yet `cexShort`'s span is fully contained in
`cexLong`'s and their overlap ratio relative to the shorter span is 1 > 0.8 —
refuting the claimed pairwise invariant (no containment in either direction,
no >0.8 overlap relative to the shorter span). -/
theorem address_overlap_invariant_counterexample :
    removeOverlappingResults [cexShort, cexLong] = [cexShort, cexLong] ∧
    cexShort ≠ cexLong ∧
    (cexLong.start ≤ cexShort.start ∧ cexShort.stop ≤ cexLong.stop) ∧
    (4 : ℚ) / 5 <
      (overlapLen cexShort cexLong : ℚ) /
        ((min (cexShort.stop - cexShort.start) (cexLong.stop - cexLong.start) : ℕ) : ℚ) := by
  refine ⟨?_, by decide, by decide, ?_⟩
  · rw [removeOverlappingResults, if_neg (by decide),
      List.mergeSort_of_sorted (by decide :
        List.Pairwise (fun a b => sortLE a b = true) [cexShort, cexLong])]
    simp [acceptResults, cexLong_no_conflict]
  · have h2 : overlapLen cexShort cexLong = 2 := by decide
    rw [h2]
    norm_num [cexShort, cexLong]

/-! #### C5: strictness of the 0.8 overlap threshold -/

/-- C5: in the overlap-resolution comparison of a candidate `r` against an
accepted result `e`, when neither exact span equality nor containment applies:
an overlap of exactly 80% of the candidate's length does not drop the
candidate (the test is strictly greater-than), while an overlap ratio above
0.8 drops it. -/
theorem overlap_threshold_strict (r e : RecognizerResult)
    (hne : ¬(r.start = e.start ∧ r.stop = e.stop))
    (hnc : ¬(e.start ≤ r.start ∧ r.stop ≤ e.stop))
    (hr : r.start ≤ r.stop) :
    (overlapLen r e * 5 = resultLen r * 4 → conflictsWith r e = false) ∧
    ((4 : ℚ) / 5 < (overlapLen r e : ℚ) / (resultLen r : ℚ) →
      conflictsWith r e = true) := by
  constructor
  · intro hex
    rw [conflictsWith, decide_eq_false_iff_not]
    rintro (h1 | h2 | ⟨hpos, hratio⟩)
    · exact hne h1
    · exact hnc h2
    · have hlen : resultLen r ≠ 0 := by
        intro h0
        rw [h0] at hex
        omega
      have hlenq : (resultLen r : ℚ) ≠ 0 := by exact_mod_cast hlen
      have hcast : (overlapLen r e : ℚ) * 5 = (resultLen r : ℚ) * 4 := by
        exact_mod_cast congrArg (fun z : ℤ => (z : ℚ)) hex
      have heq : (overlapLen r e : ℚ) / (resultLen r : ℚ) = 4 / 5 := by
        rw [div_eq_div_iff hlenq (by norm_num : (5 : ℚ) ≠ 0)]
        linarith
      rw [heq] at hratio
      exact lt_irrefl _ hratio
  · intro hgt
    rw [conflictsWith, decide_eq_true_eq]
    have hq0 : (0 : ℚ) < (overlapLen r e : ℚ) / (resultLen r : ℚ) := by
      calc (0 : ℚ) < 4 / 5 := by norm_num
        _ < _ := hgt
    have hlenq : (resultLen r : ℚ) ≠ 0 := by
      intro h0
      rw [h0, div_zero] at hq0
      exact lt_irrefl _ hq0
    have hlennn : (0 : ℚ) ≤ (resultLen r : ℚ) := by
      have h0 : (0 : ℤ) ≤ resultLen r := by
        rw [resultLen]; omega
      exact_mod_cast h0
    have hlenpos : (0 : ℚ) < (resultLen r : ℚ) :=
      lt_of_le_of_ne hlennn (Ne.symm hlenq)
    have hovq : (0 : ℚ) < (overlapLen r e : ℚ) :=
      (div_pos_iff.mp hq0).elim (fun h => h.1)
        (fun h => absurd hlenpos (not_lt.mpr h.2.le))
    have hov : 0 < overlapLen r e := by exact_mod_cast hovq
    exact Or.inr (Or.inr ⟨hov, hgt⟩)

/-- A candidate span `[0,5)` for the C5 witness. -/
def wit5r : RecognizerResult := ⟨"ADDRESS", 0, 5, score080, "pattern_matching", []⟩

/-- An accepted span `[1,20)` for the C5 witness: overlap 4 = 80% of 5. -/
def wit5e : RecognizerResult := ⟨"ADDRESS", 1, 20, score090, "context_pattern", []⟩

/-- C5 witness: overlap of exactly 80% of the candidate's length is kept. -/
theorem overlap_threshold_strict_witness :
    (¬(wit5r.start = wit5e.start ∧ wit5r.stop = wit5e.stop)) ∧
    conflictsWith wit5r wit5e = false :=
  ⟨by decide,
    (overlap_threshold_strict wit5r wit5e (by decide) (by decide) (by decide)).1
      (by decide)⟩

/-! ### A small backtracking regex engine

The recognizers use Python `re` patterns built from character classes with
bounded or unbounded greedy repetition, literal alternations, a single-char
negative lookahead/lookbehind (person-name pattern) and end anchoring.  A
pattern is a sequence of `Piece`s; `matchPieces` returns the number of
characters consumed by the leftmost-preference (greedy, backtracking) match
attempt anchored at the head of the input, exactly as Python's engine
prioritises alternatives. -/

/-- One regex piece: a character class with greedy counted repetition
(`mx = none` for unbounded `+`/`*`), an ordered literal alternation, or a
negative lookahead on the next character (`nla (fun _ => true)` is the `$`
anchor). -/
inductive Piece where
  | cls (s : Char → Bool) (mn : Nat) (mx : Option Nat)
  | lit (alts : List (List Char))
  | nla (s : Char → Bool)

/-- Greedy matching of a class repetition: try consuming `k` characters, then
`k-1`, …, down to `mn`, continuing with `cont` on the rest (Python's greedy
backtracking order). -/
def tryTake (s : Char → Bool) (mn : Nat) (cs : List Char)
    (cont : List Char → Option Nat) : Nat → Option Nat
  | 0 => if mn = 0 then cont cs else none
  | k + 1 =>
    match (if mn ≤ k + 1 ∧ k + 1 ≤ cs.length ∧ (cs.take (k + 1)).all s = true
        then (cont (cs.drop (k + 1))).map (fun n => k + 1 + n)
        else none) with
    | some n => some n
    | none => tryTake s mn cs cont k

/-- Ordered literal alternation: try each alternative in order (Python's
alternation preference). -/
def tryLits (cont : List Char → Option Nat) (cs : List Char) :
    List (List Char) → Option Nat
  | [] => none
  | a :: rest =>
    match (if a.isPrefixOf cs
        then (cont (cs.drop a.length)).map (fun n => a.length + n)
        else none) with
    | some n => some n
    | none => tryLits cont cs rest

/-- Match a piece sequence at the head of the input, returning the consumed
length of the preferred (greedy) match if any. -/
def matchPieces : List Piece → List Char → Option Nat
  | [], _ => some 0
  | Piece.cls s mn mx :: ps, cs =>
    tryTake s mn cs (fun rest => matchPieces ps rest)
      (min (mx.getD cs.length) cs.length)
  | Piece.lit alts :: ps, cs => tryLits (fun rest => matchPieces ps rest) cs alts
  | Piece.nla s :: ps, cs =>
    match cs with
    | [] => matchPieces ps cs
    | c :: _ => if s c then none else matchPieces ps cs

/-- Python `re.search`: leftmost match position; returns absolute `(start, end)`
offsets (`match.span()`). -/
def searchAux (ps : List Piece) : List Char → Option (Nat × Nat)
  | [] => (matchPieces ps []).map (fun L => (0, L))
  | c :: cs =>
    match matchPieces ps (c :: cs) with
    | some L => some (0, L)
    | none => (searchAux ps cs).map (fun r => (r.1 + 1, r.2 + 1))

/-- Python `re.finditer`: non-overlapping matches, scanning left to right; a
zero-width match advances the scan position by one (our patterns never
produce one). -/
def finditerAux (ps : List Piece) : Nat → List Char → Nat → List (Nat × Nat)
  | 0, _, _ => []
  | fuel + 1, cs, base =>
    match searchAux ps cs with
    | none => []
    | some (s, e) =>
      (base + s, base + e) ::
        finditerAux ps fuel (cs.drop (max e (s + 1))) (base + max e (s + 1))

/-- Python `re.finditer` over a whole text. -/
def reFinditer (ps : List Piece) (cs : List Char) : List (Nat × Nat) :=
  finditerAux ps (cs.length + 1) cs 0

/-- Python `re.match(r"^…$", cs)`: anchored full match (`$` modelled as strict end of
string; the spans this repository feeds to it never end in a newline). -/
def reFullMatch (ps : List Piece) (cs : List Char) : Bool :=
  (matchPieces (ps ++ [Piece.nla (fun _ => true)]) cs).isSome

/-- Variant of `searchAux` with the person pattern's single-character negative
lookbehind: a match position is admissible only when the preceding character
(tracked in `prev`) is not in the lookbehind class. -/
def searchAuxLB (lb : Char → Bool) (ps : List Piece) :
    Option Char → List Char → Option (Nat × Nat)
  | prev, [] =>
    if (match prev with | none => true | some c0 => !(lb c0)) = true
    then (matchPieces ps []).map (fun L => (0, L))
    else none
  | prev, c :: cs =>
    match (if (match prev with | none => true | some c0 => !(lb c0)) = true
        then matchPieces ps (c :: cs)
        else none) with
    | some L => some (0, L)
    | none => (searchAuxLB lb ps (some c) cs).map (fun r => (r.1 + 1, r.2 + 1))

/-- Python `re.finditer` for a pattern with a leading negative lookbehind. -/
def finditerLBAux (lb : Char → Bool) (ps : List Piece) :
    Nat → Option Char → List Char → Nat → List (Nat × Nat)
  | 0, _, _, _ => []
  | fuel + 1, prev, cs, base =>
    match searchAuxLB lb ps prev cs with
    | none => []
    | some (s, e) =>
      (base + s, base + e) ::
        finditerLBAux lb ps fuel ((cs.take (max e (s + 1))).getLast?)
          (cs.drop (max e (s + 1))) (base + max e (s + 1))

/-- Python `re.finditer` over a whole text, with lookbehind. -/
def reFinditerLB (lb : Char → Bool) (ps : List Piece) (cs : List Char) :
    List (Nat × Nat) :=
  finditerLBAux lb ps (cs.length + 1) none cs 0

example :
    matchPieces [Piece.cls Char.isDigit 1 (some 4), Piece.lit [['-']],
      Piece.cls Char.isDigit 2 (some 2)] "123-45x".data = some 6 := by decide

example :
    reFinditer [Piece.lit ["ab".data]] "xababy".data = [(1, 3), (3, 5)] := by
  decide

example :
    searchAux [Piece.cls Char.isDigit 1 none] "ab12cd34".data = some (2, 4) := by
  decide

/-! ### Character classes of the source regexes -/

/-- Class `\d` (ASCII and fullwidth digits; other Unicode decimal-digit ranges,
matched by Python's `\d` but never fed to these recognizers, are omitted). -/
def pyDigit (c : Char) : Bool :=
  c.isDigit || (0xFF10 ≤ c.toNat && c.toNat ≤ 0xFF19)

/-- Class `[0-9]` -/
def asciiDigit (c : Char) : Bool := c.isDigit

/-- Class `[０-９]` -/
def fwDigit (c : Char) : Bool := 0xFF10 ≤ c.toNat && c.toNat ≤ 0xFF19

/-- Class `[0-9０-９]` -/
def digitFW (c : Char) : Bool := asciiDigit c || fwDigit c

/-- Class `[一-龯々]` -/
def hanChar (c : Char) : Bool :=
  (0x4E00 ≤ c.toNat && c.toNat ≤ 0x9FAF) || c.toNat = 0x3005

/-- Class `[ぁ-ん]` -/
def hiraChar (c : Char) : Bool := 0x3041 ≤ c.toNat && c.toNat ≤ 0x3093

/-- Class `[ァ-ン]` -/
def kataChar (c : Char) : Bool := 0x30A1 ≤ c.toNat && c.toNat ≤ 0x30F3

/-- Class `[ぁ-んァ-ン一-龯々]` (the person pattern's lookaround class). -/
def kanaHanChar (c : Char) : Bool := hanChar c || hiraChar c || kataChar c

/-- Class `[a-zA-Z]` -/
def latinLetter (c : Char) : Bool :=
  ('a' ≤ c && c ≤ 'z') || ('A' ≤ c && c ≤ 'Z')

/-- Class `[一二三四五六七八九十]` -/
def kanjiDigit (c : Char) : Bool := "一二三四五六七八九十".data.contains c

/-- Class `[一二三四五六七八九十百千]` -/
def kanjiDigitExt (c : Char) : Bool := "一二三四五六七八九十百千".data.contains c

/-- Class `[-−0-9０-９一二三四五六七八九十]` (forward span-expansion run). -/
def expandNumChar (c : Char) : Bool :=
  c = '-' || c = '−' || digitFW c || kanjiDigit c

/-- Class `[-−0-9０-９一二三四五六七八九十百千]` (trailing group of address
pattern 3). -/
def numExtChar (c : Char) : Bool :=
  c = '-' || c = '−' || digitFW c || kanjiDigitExt c

/-- Class `[。、.，,；;:\n\r]` (span-expansion delimiter). -/
def delimChar (c : Char) : Bool := "。、.，,；;:\n\r".data.contains c

/-- Class `[一-龯々ぁ-んァ-ン0-9０-９a-zA-Z\-－・\s]` (body of address pattern 1). -/
def addrBodyChar (c : Char) : Bool :=
  kanaHanChar c || digitFW c || latinLetter c || c = '-' || c = '－' ||
    c = '・' || pyIsSpace c

/-- Class `[市区町村郡]` -/
def cityChar (c : Char) : Bool := "市区町村郡".data.contains c

/-- Class `[-－]` (hyphen class of the digit-hyphen-digit feature regex). -/
def dashFW (c : Char) : Bool := c = '-' || c = '－'

/-- Class `[-−]` (hyphen class of the postal-code pattern). -/
def dashMinus (c : Char) : Bool := c = '-' || c = '−'

/-- Class `[-\s]` (separator class of the phone patterns). -/
def dashSpace (c : Char) : Bool := c = '-' || pyIsSpace c

/-- Class `[一-龯々ぁ-んァ-ン0-9０-９]` (head class of address pattern 3). -/
def hanKanaDigitChar (c : Char) : Bool := kanaHanChar c || digitFW c

/-- Requested-entity filter shared by `JapanesePersonRecognizer` and
`JapaneseAddressRecognizer` (`check_entity_supported`): an empty list means
every supported entity is requested. -/
def checkEntitySupported (entities : List String) (entityType : String) : Bool :=
  if entities.isEmpty then true else entities.contains entityType

/-! ### `JapanesePhoneNumberRecognizer` -/

/-- Regex `0[789]0[-\s]?\d{4}[-\s]?\d{4}` (`mobile_phone`). -/
def mobilePhonePieces : List Piece :=
  [Piece.lit [['0']], Piece.cls (fun c => c = '7' || c = '8' || c = '9') 1 (some 1),
   Piece.lit [['0']], Piece.cls dashSpace 0 (some 1), Piece.cls pyDigit 4 (some 4),
   Piece.cls dashSpace 0 (some 1), Piece.cls pyDigit 4 (some 4)]

/-- Regex `0\d{1,4}[-\s]?\d{1,4}[-\s]?\d{4}` (`landline_phone`). -/
def landlinePhonePieces : List Piece :=
  [Piece.lit [['0']], Piece.cls pyDigit 1 (some 4), Piece.cls dashSpace 0 (some 1),
   Piece.cls pyDigit 1 (some 4), Piece.cls dashSpace 0 (some 1),
   Piece.cls pyDigit 4 (some 4)]

/-- Modelled from the spec: the pattern-matching `analyze` inherited from the
external `presidio_analyzer.PatternRecognizer` is not part of this
repository's sources; per the spec it runs every pattern of the library over
the text and emits one result per match with the pattern's base score and
`source=pattern`, performing no deduplication or merging of overlapping
matches of the same type. The pattern library itself
(`JapanesePhoneNumberRecognizer.__init__`) is taken from the source. -/
def JapanesePhoneNumberRecognizer.analyze (text : List Char)
    (entities : List String) : List RecognizerResult :=
  if !(checkEntitySupported entities "PHONE_NUMBER") then []
  else
    [mobilePhonePieces, landlinePhonePieces].flatMap (fun ps =>
      (reFinditer ps text).map (fun se =>
        ⟨"PHONE_NUMBER", se.1, se.2, score080, "pattern", pySlice text se.1 se.2⟩))

/-! ### `JapanesePersonRecognizer` -/

/-- The exclusion-word list of `_is_valid_person_name`. -/
def exclusions : List (List Char) :=
  strList ["電話", "電話番号", "携帯", "メール", "メールアドレス", "住所", "郵便番号",
    "会社", "学校", "大学", "病院", "銀行", "支店", "本店", "本社", "です", "ます",
    "ました", "ください", "なし", "あり"]

/-- Mirror of `JapanesePersonRecognizer._is_valid_person_name`. -/
def JapanesePersonRecognizer.isValidPersonName (cs : List Char) : Bool :=
  if exclusions.any (fun w => occursIn w cs) then false
  else if (pyStrip cs).length < 3 then false
  else true

/-- NER-sourced person candidates (first loop of
`JapanesePersonRecognizer.analyze`). -/
def personNerResults (text : List Char) (a : NlpArtifacts) :
    List RecognizerResult :=
  a.entities.filterMap (fun ent =>
    if ent.label = "PERSON" then
      let span := pySlice text ent.startChar ent.endChar
      if JapanesePersonRecognizer.isValidPersonName span then
        some ⟨"PERSON", ent.startChar, ent.endChar, score085, "spacy_model", span⟩
      else none
    else none)

/-- Regex `(?<![ぁ-んァ-ン一-龯々])[一-龯々]{2,4}\s*[一-龯々]{1,3}(?![ぁ-んァ-ン一-龯々])`
(`common_name_pattern`), split as lookbehind class + pieces. -/
def commonNamePieces : List Piece :=
  [Piece.cls hanChar 2 (some 4), Piece.cls pyIsSpace 0 none,
   Piece.cls hanChar 1 (some 3), Piece.nla kanaHanChar]

/-- Honorific context words boosting a pattern-matched name's score. -/
def honorifics : List (List Char) :=
  strList ["さん", "氏", "君", "様", "殿", "先生", "教授", "博士"]

/-- Pattern-sourced person candidates (second loop of
`JapanesePersonRecognizer.analyze`). -/
def personPatternResults (text : List Char) : List RecognizerResult :=
  (reFinditerLB kanaHanChar commonNamePieces text).filterMap (fun se =>
    let span := pySlice text se.1 se.2
    if JapanesePersonRecognizer.isValidPersonName span ∧
        3 ≤ span.length ∧ span.length ≤ 8 then
      let score :=
        if honorifics.any (fun c =>
            decide (se.2 + c.length ≤ text.length) &&
              decide (pySlice text se.2 (se.2 + c.length) = c))
        then score085 else score075
      some ⟨"PERSON", se.1, se.2, score, "pattern_matching", span⟩
    else none)

/-- Mirror of `JapanesePersonRecognizer.analyze`.  Accessing `.entities` on an absent
(`None`) `nlp_artifacts` raises `AttributeError` before the pattern loop
runs. -/
def JapanesePersonRecognizer.analyze (text : List Char) (entities : List String)
    (arts : Option NlpArtifacts) : Except PyErr (List RecognizerResult) :=
  if !(checkEntitySupported entities "PERSON") then Except.ok []
  else
    match arts with
    | none => Except.error PyErr.attributeError
    | some a => Except.ok (personNerResults text a ++ personPatternResults text)

/-! ### `JapaneseAddressRecognizer` -/

/-- The 47 prefecture names (`self.prefectures`), in source order. -/
def prefectures : List (List Char) :=
  strList ["北海道", "青森県", "岩手県", "宮城県", "秋田県", "山形県", "福島県",
    "茨城県", "栃木県", "群馬県", "埼玉県", "千葉県", "東京都", "神奈川県",
    "新潟県", "富山県", "石川県", "福井県", "山梨県", "長野県", "岐阜県",
    "静岡県", "愛知県", "三重県", "滋賀県", "京都府", "大阪府", "兵庫県",
    "奈良県", "和歌山県", "鳥取県", "島根県", "岡山県", "広島県", "山口県",
    "徳島県", "香川県", "愛媛県", "高知県", "福岡県", "佐賀県", "長崎県",
    "熊本県", "大分県", "宮崎県", "鹿児島県", "沖縄県"]

/-- Mirror of `self.address_keywords`. -/
def addressKeywords : List (List Char) :=
  strList ["市", "区", "町", "村", "郡", "丁目", "番地", "号", "マンション",
    "アパート", "団地", "住宅", "荘", "ハイツ", "コーポ", "ビル", "タワー",
    "コート", "号室", "室", "階"]

/-- Address pattern 1: a prefecture name followed by 2–30 body characters and
a city/ward/town/village/county marker. -/
def addrPattern1 : List Piece :=
  [Piece.lit prefectures, Piece.cls addrBodyChar 2 (some 30),
   Piece.cls cityChar 1 (some 1)]

/-- Address pattern 2: `〒\d{3}[-−]?\d{4}`. -/
def addrPattern2 : List Piece :=
  [Piece.lit [['〒']], Piece.cls pyDigit 3 (some 3),
   Piece.cls dashMinus 0 (some 1), Piece.cls pyDigit 4 (some 4)]

/-- Address pattern 3: block/lot numbering expressions
`[一-龯々ぁ-んァ-ン0-9０-９]+(?:丁目|番町|条|番地|番|通|町目|条通|の町|横町)([-−0-9０-９一二三四五六七八九十百千]+)?`. -/
def addrPattern3 : List Piece :=
  [Piece.cls hanKanaDigitChar 1 none,
   Piece.lit (strList ["丁目", "番町", "条", "番地", "番", "通", "町目", "条通",
     "の町", "横町"]),
   Piece.cls numExtChar 0 none]

/-- Regex `([0-9０-９一二三四五六七八九十]+)(丁目|番地|号|番|条|町目|区|市)` — the
number-plus-marker feature regex of `_has_address_features`. -/
def featureNumPieces : List Piece :=
  [Piece.cls (fun c => digitFW c || kanjiDigit c) 1 none,
   Piece.lit (strList ["丁目", "番地", "号", "番", "条", "町目", "区", "市"])]

/-- Class `[0-9０-９]{1,3}[-－][0-9０-９]{1,3}[-－][0-9０-９]{1,3}` — the
digit-hyphen-digit feature regex of `_has_address_features`. -/
def featureDashPieces : List Piece :=
  [Piece.cls digitFW 1 (some 3), Piece.cls dashFW 1 (some 1),
   Piece.cls digitFW 1 (some 3), Piece.cls dashFW 1 (some 1),
   Piece.cls digitFW 1 (some 3)]

/-- Mirror of `JapaneseAddressRecognizer._has_address_features`. -/
def JapaneseAddressRecognizer.hasAddressFeatures (cs : List Char) : Bool :=
  prefectures.any (fun p => occursIn p cs) ||
  addressKeywords.any (fun k => occursIn k cs) ||
  (searchAux featureNumPieces cs).isSome ||
  (searchAux featureDashPieces cs).isSome

/-- Regex `^\d{3}-\d{4}$` (bare postal code). -/
def postalShapePieces : List Piece :=
  [Piece.cls pyDigit 3 (some 3), Piece.lit [['-']], Piece.cls pyDigit 4 (some 4)]

/-- Regex `^\d{4}年\d{1,2}月\d{1,2}日$` (date). -/
def dateShapePieces : List Piece :=
  [Piece.cls pyDigit 4 (some 4), Piece.lit [['年']], Piece.cls pyDigit 1 (some 2),
   Piece.lit [['月']], Piece.cls pyDigit 1 (some 2), Piece.lit [['日']]]

/-- Regex `^\d{11,12}$` (My Number-like). -/
def idShapePieces : List Piece := [Piece.cls pyDigit 11 (some 12)]

/-- Regex `^\d{2,4}-\d{2,4}-\d{4}$` (phone-like). -/
def phoneShapePieces : List Piece :=
  [Piece.cls pyDigit 2 (some 4), Piece.lit [['-']], Piece.cls pyDigit 2 (some 4),
   Piece.lit [['-']], Piece.cls pyDigit 4 (some 4)]

/-- Mirror of `JapaneseAddressRecognizer._is_valid_address`: numeric-shape exclusions in
source order, then the feature test. -/
def JapaneseAddressRecognizer.isValidAddress (cs : List Char) : Bool :=
  if reFullMatch postalShapePieces cs then false
  else if reFullMatch dateShapePieces cs then false
  else if reFullMatch idShapePieces cs then false
  else if reFullMatch phoneShapePieces cs then false
  else JapaneseAddressRecognizer.hasAddressFeatures cs

/-- The backward scan of `_expand_address_span`: walk the prefecture list in
order; the first prefecture whose last occurrence in `pre` lies within 30
characters of `start` wins (`break`), otherwise keep scanning. -/
def findPrefStart : List (List Char) → List Char → Nat → Nat
  | [], _, start => start
  | p :: ps, pre, start =>
    match rfindLit p pre with
    | some pos => if start - pos < 30 then pos else findPrefStart ps pre start
    | none => findPrefStart ps pre start

/-- Mirror of `JapaneseAddressRecognizer._expand_address_span`. -/
def JapaneseAddressRecognizer.expandAddressSpan (text : List Char)
    (start stop : Nat) : Nat × Nat :=
  let start1 := findPrefStart prefectures (text.take start) start
  let post := (text.drop stop).take 30
  let stop1 :=
    match searchAux [Piece.cls expandNumChar 1 none] post with
    | none => stop
    | some (_, e) =>
      match searchAux [Piece.cls delimChar 1 (some 1)] (post.drop e) with
      | none => min text.length (stop + e)
      | some (ds, _) => min text.length (stop + e + ds)
  (start1, stop1)

/-- The address context trigger words (`context_words` in
`JapaneseAddressRecognizer.analyze`), in source order. -/
def contextWords : List (List Char) :=
  strList ["住所", "自宅", "所在地", "住所は", "住所：", "自宅は", "自宅：",
    "所在地は", "所在地："]

/-- All `(start, end)` spans of context-word occurrences
(`context_positions`), grouped by word in source order. -/
def contextPositions (text : List Char) : List (Nat × Nat) :=
  contextWords.flatMap (fun w => reFinditer [Piece.lit [w]] text)

/-- Class `[\n\r]|(住所|自宅|所在地|…)` — the terminator search that bounds a
context-anchored address candidate; only its match start is used. -/
def ctxStopPieces : List Piece :=
  [Piece.lit ([['\n'], ['\r']] ++ contextWords)]

/-- Loop body of the context-anchored extraction in
`JapaneseAddressRecognizer.analyze` (lines 411–433): take the text after the
trigger up to the next newline or trigger, strip it, and emit a score-0.9
result if it is longer than 4 characters and has address features.  Note the
recorded span starts at the trigger's end even when leading whitespace was
stripped from the candidate. -/
def processContext (text : List Char) (ctxEnd : Nat) : Option RecognizerResult :=
  let remaining := text.drop ctxEnd
  let candidate :=
    match searchAux ctxStopPieces remaining with
    | some se => pyStrip (remaining.take se.1)
    | none => pyStrip remaining
  if 4 < candidate.length ∧
      JapaneseAddressRecognizer.hasAddressFeatures candidate then
    some ⟨"ADDRESS", ctxEnd, ctxEnd + candidate.length, score090,
      "context_pattern", candidate⟩
  else none

/-- All context-anchored address candidates. -/
def contextResults (text : List Char) : List RecognizerResult :=
  (contextPositions text).filterMap (fun p => processContext text p.2)

/-- Pattern-matching address candidates (lines 436–466): each regex match is
shape-filtered, scored 0.95 when within 20 characters of a context trigger's
end (else 0.8), span-expanded, and emitted with the expanded slice as its
value. -/
def addressPatternResults (text : List Char) (ctxPos : List (Nat × Nat)) :
    List RecognizerResult :=
  [addrPattern1, addrPattern2, addrPattern3].flatMap (fun ps =>
    (reFinditer ps text).filterMap (fun se =>
      let span := pySlice text se.1 se.2
      if JapaneseAddressRecognizer.isValidAddress span then
        let score :=
          if ctxPos.any (fun p => ((p.2 : ℤ) - (se.1 : ℤ)).natAbs < 20)
          then score095 else score080
        let es := JapaneseAddressRecognizer.expandAddressSpan text se.1 se.2
        some ⟨"ADDRESS", es.1, es.2, score, "pattern_matching",
          pySlice text es.1 es.2⟩
      else none))

/-- NER-assisted address candidates (lines 469–492): every artifact labeled
`LOC` whose raw text passes the feature test, span-expanded, score 0.75. -/
def addressNerResults (text : List Char) (a : NlpArtifacts) :
    List RecognizerResult :=
  a.entities.filterMap (fun ent =>
    if ent.label = "LOC" then
      let span := pySlice text ent.startChar ent.endChar
      if JapaneseAddressRecognizer.hasAddressFeatures span then
        let es := JapaneseAddressRecognizer.expandAddressSpan text
          ent.startChar ent.endChar
        some ⟨"ADDRESS", es.1, es.2, score075, "spacy_model",
          pySlice text es.1 es.2⟩
      else none
    else none)

/-- Mirror of `JapaneseAddressRecognizer.analyze`.  The context and pattern strategies
run first; accessing `.entities` on an absent (`None`) `nlp_artifacts` then
raises `AttributeError`, discarding their results. -/
def JapaneseAddressRecognizer.analyze (text : List Char) (entities : List String)
    (arts : Option NlpArtifacts) : Except PyErr (List RecognizerResult) :=
  if !(checkEntitySupported entities "ADDRESS") then Except.ok []
  else
    let ctxPos := contextPositions text
    let ctxRes := ctxPos.filterMap (fun p => processContext text p.2)
    let patRes := addressPatternResults text ctxPos
    match arts with
    | none => Except.error PyErr.attributeError
    | some a =>
      Except.ok (removeOverlappingResults
        (ctxRes ++ patRes ++ addressNerResults text a))

/-! ### C2: behaviour on absent NLP artifacts -/

/-- C2 (counterexample): with absent (`None`) artifacts both the person and
the address recognizer raise `AttributeError` when dereferencing
`nlp_artifacts.entities`, instead of returning normally; the pattern-based
strategies' results are discarded. -/
theorem analyze_none_artifacts_raises :
    JapanesePersonRecognizer.analyze "山田太郎です".data [] none =
      Except.error PyErr.attributeError ∧
    JapaneseAddressRecognizer.analyze "山田太郎です".data [] none =
      Except.error PyErr.attributeError :=
  ⟨rfl, rfl⟩

/-- C2 (amended): graceful degradation holds for artifacts that are present
but empty: the NER-sourced strategies contribute no candidates and the
pattern-based strategies still produce their results, for every text and
every requested-entities list. -/
theorem analyze_empty_artifacts_degrades (text : List Char)
    (ents : List String) :
    JapanesePersonRecognizer.analyze text ents (some ⟨[]⟩) =
      Except.ok (if checkEntitySupported ents "PERSON"
        then personPatternResults text else []) ∧
    JapaneseAddressRecognizer.analyze text ents (some ⟨[]⟩) =
      Except.ok (if checkEntitySupported ents "ADDRESS"
        then removeOverlappingResults
          (contextResults text ++ addressPatternResults text (contextPositions text))
        else []) := by
  constructor
  · rw [JapanesePersonRecognizer.analyze]
    by_cases h : checkEntitySupported ents "PERSON"
    · simp [h, personNerResults]
    · simp [h]
  · rw [JapaneseAddressRecognizer.analyze]
    by_cases h : checkEntitySupported ents "ADDRESS"
    · simp [h, addressNerResults, contextResults]
    · simp [h]

/-! ### C3: stored value versus recorded span -/

/-- A text whose context trigger `住所：` is followed by a space: the
candidate is stripped but the recorded span is not shifted. -/
def t0 : List Char := "住所： 東京都千代田区1-1-1".data

/-- C3 (code bug): the context-anchored result recorded for `t0` stores
`entity_value = "東京都千代田区1-1-1"` while `text[start:end]` is
`" 東京都千代田区1-1-"` — the recorded span keeps the stripped leading space
and cuts off the final character, so `entity_value ≠ text[start:end]` at
creation time. -/
theorem context_candidate_value_span_mismatch :
    ∃ r ∈ contextResults t0,
      r.entityValue ≠ pySlice t0 r.start r.stop ∧
      r.start ≤ r.stop ∧ r.stop ≤ t0.length := by
  refine ⟨⟨"ADDRESS", 3, 15, score090, "context_pattern",
    "東京都千代田区1-1-1".data⟩, ?_, ?_⟩
  · decide
  · refine ⟨?_, by decide, by decide⟩
    decide

/-! ### C6: backward span expansion picks list order, not proximity -/

/-- Text with two prefecture names before position 6: `北海道` at 0 (distance
6) and `青森県` at 3 (distance 3, strictly nearer). -/
def t1 : List Char := "北海道青森県中央1".data

/-- C6 (counterexample): expanding the span `[6,9)` of `t1` moves the start
to 0 — the last occurrence of `北海道`, the first list-order prefecture within
30 characters — even though the prefecture occurrence `青森県` at position 3
is nearer to the match start. -/
theorem expand_start_not_nearest :
    (JapaneseAddressRecognizer.expandAddressSpan t1 6 9).1 = 0 ∧
    "青森県".data.isPrefixOf (t1.drop 3) = true ∧
    6 - 3 < 30 ∧ (0 : Nat) ≠ 3 := by
  refine ⟨by decide, by decide, by decide, by decide⟩

/-! ### C7: phone recognizer on the scenario-A input -/

/-- The scenario-A input text. -/
def inputA : List Char := "私の電話番号は090-1234-5678です。".data

/-- C7 (counterexample): under the spec's no-deduplication model of the
pattern recognizer, the phone recognizer returns two results on the
scenario-A input, not exactly one. -/
theorem phone_scenarioA_two_results :
    (JapanesePhoneNumberRecognizer.analyze inputA ["PHONE_NUMBER"]).length = 2 := by
  decide

/-- C7 (amended): both phone patterns match the same span `090-1234-5678`,
so the no-deduplication analyze returns exactly two identical results — one
per pattern — each with `entity_type "PHONE_NUMBER"`, matched text
`090-1234-5678` and score 0.8; exactly one distinct span is detected. -/
theorem phone_scenarioA_results :
    JapanesePhoneNumberRecognizer.analyze inputA ["PHONE_NUMBER"] =
      [⟨"PHONE_NUMBER", 7, 20, score080, "pattern", "090-1234-5678".data⟩,
       ⟨"PHONE_NUMBER", 7, 20, score080, "pattern", "090-1234-5678".data⟩] ∧
    pySlice inputA 7 20 = "090-1234-5678".data := by
  refine ⟨by decide, by decide⟩

/-! ### C8: requested-entities capability filter -/

theorem checkEntitySupported_eq_false (ents : List String) (t : String)
    (h1 : ents ≠ []) (h2 : t ∉ ents) : checkEntitySupported ents t = false := by
  rw [checkEntitySupported, if_neg (by simpa using h1)]
  simpa using h2

/-- C8: for each recognizer, a non-empty requested-entities list lacking the
recognizer's supported type makes `analyze` return the empty list
immediately, while an empty list is treated as requesting every supported
type — analysis proceeds exactly as when the supported type is requested
explicitly. -/
theorem requested_entities_filter (text : List Char) (ents : List String)
    (arts : Option NlpArtifacts) :
    ((ents ≠ [] ∧ "PERSON" ∉ ents) →
      JapanesePersonRecognizer.analyze text ents arts = Except.ok []) ∧
    ((ents ≠ [] ∧ "ADDRESS" ∉ ents) →
      JapaneseAddressRecognizer.analyze text ents arts = Except.ok []) ∧
    ((ents ≠ [] ∧ "PHONE_NUMBER" ∉ ents) →
      JapanesePhoneNumberRecognizer.analyze text ents = []) ∧
    JapanesePersonRecognizer.analyze text [] arts =
      JapanesePersonRecognizer.analyze text ["PERSON"] arts ∧
    JapaneseAddressRecognizer.analyze text [] arts =
      JapaneseAddressRecognizer.analyze text ["ADDRESS"] arts := by
  refine ⟨?_, ?_, ?_, rfl, rfl⟩
  · rintro ⟨h1, h2⟩
    unfold JapanesePersonRecognizer.analyze
    rw [checkEntitySupported_eq_false ents "PERSON" h1 h2]
    rfl
  · rintro ⟨h1, h2⟩
    unfold JapaneseAddressRecognizer.analyze
    rw [checkEntitySupported_eq_false ents "ADDRESS" h1 h2]
    rfl
  · rintro ⟨h1, h2⟩
    unfold JapanesePhoneNumberRecognizer.analyze
    rw [checkEntitySupported_eq_false ents "PHONE_NUMBER" h1 h2]
    rfl

/-- C8 witness: requesting only `EMAIL_ADDRESS` makes the person recognizer
return the empty list at once (even with absent artifacts). -/
theorem requested_entities_filter_witness :
    ((["EMAIL_ADDRESS"] ≠ ([] : List String)) ∧ "PERSON" ∉ ["EMAIL_ADDRESS"]) ∧
    JapanesePersonRecognizer.analyze "山田太郎".data ["EMAIL_ADDRESS"] none =
      Except.ok [] :=
  ⟨⟨by decide, by decide⟩,
    (requested_entities_filter "山田太郎".data ["EMAIL_ADDRESS"] none).1
      ⟨by decide, by decide⟩⟩

/-! ### C6 (amended): which prefecture wins the backward scan -/

theorem findPrefStart_spec (pre : List Char) (s : Nat) :
    ∀ (L : List (List Char)) (k : Nat) (p : List Char) (pos : Nat),
      L[k]? = some p → rfindLit p pre = some pos → s - pos < 30 →
      (∀ j, j < k → ∀ q, L[j]? = some q →
        ∀ pos2, rfindLit q pre = some pos2 → 30 ≤ s - pos2) →
      findPrefStart L pre s = pos := by
  intro L
  induction L with
  | nil => intro k p pos hk; simp at hk
  | cons q qs ih =>
    intro k p pos hk hf hn he
    cases k with
    | zero =>
      simp only [List.getElem?_cons_zero, Option.some_inj] at hk
      subst hk
      rw [findPrefStart, hf]
      show (if s - pos < 30 then pos else findPrefStart qs pre s) = pos
      rw [if_pos hn]
    | succ k2 =>
      rw [List.getElem?_cons_succ] at hk
      have htail : findPrefStart qs pre s = pos := by
        refine ih k2 p pos hk hf hn ?_
        intro j hj q2 hq2 pos2 hpos2
        exact he (j + 1) (by omega) q2 (by simpa using hq2) pos2 hpos2
      rw [findPrefStart]
      cases hcase : rfindLit q pre with
      | none => exact htail
      | some pos2 =>
        have h30 := he 0 (Nat.succ_pos k2) q (by simp) pos2 hcase
        show (if s - pos2 < 30 then pos2 else findPrefStart qs pre s) = pos
        rw [if_neg (by omega)]
        exact htail

/-- C6 (amended): the backward scan of `_expand_address_span` moves the start
to the last occurrence of the *first prefecture in the fixed 47-name list
order* whose last occurrence before the match lies within 30 characters of
the match start — not to the nearest prefecture occurrence. -/
theorem expand_start_first_listed_prefecture (text : List Char) (s e k : Nat)
    (p : List Char) (pos : Nat)
    (hk : prefectures[k]? = some p)
    (hfound : rfindLit p (text.take s) = some pos)
    (hnear : s - pos < 30)
    (hearlier : ∀ j, j < k → ∀ q, prefectures[j]? = some q →
      ∀ pos2, rfindLit q (text.take s) = some pos2 → 30 ≤ s - pos2) :
    (JapaneseAddressRecognizer.expandAddressSpan text s e).1 = pos := by
  rw [JapaneseAddressRecognizer.expandAddressSpan]
  exact findPrefStart_spec (text.take s) s prefectures k p pos hk hfound hnear
    hearlier

/-- C6 (amended) witness: on `t1` with match span `[6,9)`, the first listed
prefecture `北海道` wins and the start moves to 0. -/
theorem expand_start_first_listed_prefecture_witness :
    prefectures[0]? = some "北海道".data ∧
    (JapaneseAddressRecognizer.expandAddressSpan t1 6 9).1 = 0 :=
  ⟨by decide,
    expand_start_first_listed_prefecture t1 6 9 0 "北海道".data 0 (by decide)
      (by decide) (by decide) (fun j hj => absurd hj (by omega))⟩

/-! ### C9: context candidate when no terminator follows the trigger -/

theorem tryLits_none (cont : List Char → Option Nat) (cs : List Char) :
    ∀ alts, (∀ a ∈ alts, a.isPrefixOf cs = false) → tryLits cont cs alts = none := by
  intro alts
  induction alts with
  | nil => intro _; rfl
  | cons a rest ih =>
    intro h
    rw [tryLits, h a (List.mem_cons_self a rest)]
    simpa using ih (fun b hb => h b (List.mem_cons_of_mem a hb))

theorem matchPieces_lit_none (alts : List (List Char)) (l : List Char)
    (h : ∀ a ∈ alts, a.isPrefixOf l = false) :
    matchPieces [Piece.lit alts] l = none := by
  rw [matchPieces]
  exact tryLits_none _ l alts h

theorem searchAux_none (ps : List Piece) :
    ∀ l : List Char, (∀ i, matchPieces ps (l.drop i) = none) →
      searchAux ps l = none := by
  intro l
  induction l with
  | nil =>
    intro h
    have h0 := h 0
    rw [List.drop_zero] at h0
    rw [searchAux, h0]
    rfl
  | cons c cs ih =>
    intro h
    have h0 := h 0
    rw [List.drop_zero] at h0
    rw [searchAux, h0]
    rw [ih (fun i => h (i + 1))]
    rfl

theorem contextWords_ne_nil : ∀ w ∈ contextWords, w ≠ [] := by decide

/-- C9: if the text after a context-trigger occurrence contains no newline,
no carriage return and no further trigger phrase, then the candidate is the
whole whitespace-stripped remainder, and — provided it is longer than 4
characters and has address features — it is emitted with score 0.9 as a
context-anchored result spanning from the trigger's end. -/
theorem context_candidate_full_remainder (text : List Char) (cs ce : Nat)
    (h1 : (cs, ce) ∈ contextPositions text)
    (hn : ∀ c ∈ text.drop ce, c ≠ '\n' ∧ c ≠ '\r')
    (ht : ∀ w ∈ contextWords, occursIn w (text.drop ce) = false)
    (hlen : 4 < (pyStrip (text.drop ce)).length)
    (hfeat : JapaneseAddressRecognizer.hasAddressFeatures
      (pyStrip (text.drop ce)) = true) :
    (⟨"ADDRESS", ce, ce + (pyStrip (text.drop ce)).length, score090,
      "context_pattern", pyStrip (text.drop ce)⟩ : RecognizerResult) ∈
      contextResults text := by
  have hpref : ∀ i, ∀ a ∈ [['\n'], ['\r']] ++ contextWords,
      a.isPrefixOf ((text.drop ce).drop i) = false := by
    intro i a ha
    rw [List.mem_append] at ha
    by_contra hcon
    have hpre : a <+: (text.drop ce).drop i := by
      rw [← List.isPrefixOf_iff_prefix]
      revert hcon
      cases a.isPrefixOf ((text.drop ce).drop i) <;> simp
    rcases ha with ha | ha
    · have hmem : ∀ x ∈ a, x ∈ text.drop ce := fun x hx =>
        List.drop_subset i _ (hpre.subset hx)
      rcases List.mem_cons.mp ha with ha | ha
      · subst ha
        exact (hn '\n' (hmem '\n' (by simp))).1 rfl
      · rw [List.mem_singleton] at ha
        subst ha
        exact (hn '\r' (hmem '\r' (by simp))).2 rfl
    · by_cases hi : i ≤ (text.drop ce).length
      · have hocc : occursIn a (text.drop ce) = true := by
          rw [occursIn, Bool.not_eq_true', List.isEmpty_eq_false_iff_exists_mem]
        -- nonempty because index i is an occurrence
          refine ⟨i, ?_⟩
          rw [allOccurrences, List.mem_filter]
          exact ⟨List.mem_range.mpr (by omega),
            List.isPrefixOf_iff_prefix.mpr hpre⟩
        rw [ht a ha] at hocc
        exact Bool.false_ne_true hocc
      · have : (text.drop ce).drop i = [] := by
          rw [List.drop_eq_nil_iff]
          omega
        rw [this] at hpre
        have := List.prefix_nil.mp hpre
        exact contextWords_ne_nil a ha this
  have hsearch : searchAux ctxStopPieces (text.drop ce) = none := by
    apply searchAux_none
    intro i
    exact matchPieces_lit_none _ _ (hpref i)
  refine List.mem_filterMap.mpr ⟨(cs, ce), h1, ?_⟩
  rw [processContext, hsearch]
  show (if 4 < (pyStrip (text.drop ce)).length ∧
      JapaneseAddressRecognizer.hasAddressFeatures (pyStrip (text.drop ce)) = true
    then _ else none) = _
  rw [if_pos ⟨hlen, hfeat⟩]

/-- The C9 witness text: one trigger (`自宅は`, with `自宅` as a sub-trigger)
followed by an address-like remainder with no newline and no further
trigger. -/
def tW : List Char := "自宅は東京都港区1-2-3".data

/-- C9 witness: on `tW` the trigger occurrence `(0, 3)` yields the full
stripped remainder as a score-0.9 result. -/
theorem context_candidate_full_remainder_witness :
    ((0, 3) ∈ contextPositions tW) ∧
    (⟨"ADDRESS", 3, 13, score090, "context_pattern",
      "東京都港区1-2-3".data⟩ : RecognizerResult) ∈ contextResults tW :=
  ⟨by decide,
    context_candidate_full_remainder tW 0 3 (by decide) (by decide) (by decide)
      (by decide) (by decide)⟩

/-! ### C10: forward span expansion -/

theorem take_all_iff_takeWhile (s : Char → Bool) :
    ∀ (l : List Char) (k : Nat), k ≤ l.length →
      (((l.take k).all s = true) ↔ k ≤ (l.takeWhile s).length) := by
  intro l
  induction l with
  | nil =>
    intro k hk
    simp only [List.length_nil, Nat.le_zero] at hk
    subst hk
    simp
  | cons c cs ih =>
    intro k hk
    cases k with
    | zero => simp
    | succ k2 =>
      rw [List.take_succ_cons, List.all_cons]
      cases hc : s c with
      | true =>
        rw [List.takeWhile_cons_of_pos hc]
        simp only [List.length_cons, Bool.true_and]
        rw [ih k2 (by simpa using hk)]
        omega
      | false =>
        rw [List.takeWhile_cons_of_neg (by simp [hc])]
        simp

theorem tryTake_congr (s : Char → Bool) (mn : Nat) (cs : List Char)
    (c1 c2 : List Char → Option Nat) (h : ∀ x, c1 x = c2 x) :
    ∀ K, tryTake s mn cs c1 K = tryTake s mn cs c2 K := by
  intro K
  induction K with
  | zero => simp only [tryTake, h]
  | succ k ih => simp only [tryTake, h, ih]

theorem tryTake_run (s : Char → Bool) (l : List Char) :
    ∀ K, K ≤ l.length →
      tryTake s 1 l (fun _ => some 0) K =
        if (l.takeWhile s).length = 0 ∨ K = 0 then none
        else some (min K (l.takeWhile s).length) := by
  intro K
  induction K with
  | zero =>
    intro _
    rw [tryTake]
    simp
  | succ k ih =>
    intro hK
    rw [tryTake]
    by_cases hcond : 1 ≤ k + 1 ∧ k + 1 ≤ l.length ∧ (l.take (k + 1)).all s = true
    · rw [if_pos hcond]
      have htw : k + 1 ≤ (l.takeWhile s).length :=
        (take_all_iff_takeWhile s l (k + 1) hcond.2.1).mp hcond.2.2
      have hmin : min (k + 1) (l.takeWhile s).length = k + 1 := by omega
      rw [if_neg (by omega), hmin]
      rfl
    · rw [if_neg hcond]
      show tryTake s 1 l (fun _ => some 0) k = _
      rw [ih (by omega)]
      have hall : (l.take (k + 1)).all s = false := by
        rcases Bool.eq_false_or_eq_true ((l.take (k + 1)).all s) with h | h
        · exact absurd ⟨by omega, hK, h⟩ hcond
        · exact h
      have htw : (l.takeWhile s).length ≤ k := by
        by_contra hgt
        push_neg at hgt
        have h1 := (take_all_iff_takeWhile s l (k + 1) hK).mpr (by omega)
        simp [h1] at hall
      by_cases h0 : (l.takeWhile s).length = 0
      · simp [h0]
      · rw [if_neg (by omega), if_neg (by omega)]
        congr 1
        omega

theorem matchPieces_run (s : Char → Bool) (l : List Char) :
    matchPieces [Piece.cls s 1 none] l =
      if (l.takeWhile s).length = 0 then none
      else some (l.takeWhile s).length := by
  rw [matchPieces]
  rw [tryTake_congr s 1 l (fun rest => matchPieces [] rest) (fun _ => some 0)
    (fun x => rfl)]
  have hK : min ((none : Option Nat).getD l.length) l.length = l.length := by
    simp
  rw [hK, tryTake_run s l l.length le_rfl]
  have htw : (l.takeWhile s).length ≤ l.length :=
    (List.takeWhile_sublist s).length_le
  by_cases h0 : (l.takeWhile s).length = 0
  · simp [h0]
  · by_cases hl : l.length = 0
    · exact absurd (by omega : (l.takeWhile s).length = 0) h0
    · rw [if_neg (by omega), if_neg h0]
      congr 1
      omega

theorem matchPieces_one (s : Char → Bool) (l : List Char) :
    matchPieces [Piece.cls s 1 (some 1)] l =
      match l with
      | [] => none
      | c :: _ => if s c then some 1 else none := by
  cases l with
  | nil => rfl
  | cons c cs =>
    rw [matchPieces]
    have hK : min ((some 1).getD (c :: cs).length) (c :: cs).length = 1 := by
      simp
    rw [hK, tryTake]
    by_cases hc : s c
    · rw [if_pos ⟨by omega, by simp, by simp [List.take_succ_cons, hc]⟩]
      show some (0 + 1 + 0) = _
      simp [hc]
    · rw [if_neg (by
        rintro ⟨-, -, hall⟩
        rw [List.take_succ_cons, List.take_zero, List.all_cons] at hall
        simp [hc] at hall)]
      show tryTake s 1 (c :: cs) _ 0 = _
      rw [tryTake]
      simp [hc]

theorem searchAux_run (s : Char → Bool) :
    ∀ l : List Char,
      searchAux [Piece.cls s 1 none] l =
        match l.findIdx? s with
        | none => none
        | some i => some (i, i + ((l.drop i).takeWhile s).length) := by
  intro l
  induction l with
  | nil =>
    rw [searchAux, matchPieces_run]
    simp
  | cons c cs ih =>
    rw [searchAux, matchPieces_run]
    cases hc : s c with
    | true =>
      rw [List.takeWhile_cons_of_pos hc]
      rw [if_neg (by simp)]
      show some (0, (c :: List.takeWhile s cs).length) = _
      rw [List.findIdx?_cons, if_pos hc]
      show _ = some (0, 0 + (((c :: cs).drop 0).takeWhile s).length)
      rw [List.drop_zero, List.takeWhile_cons_of_pos hc]
      simp
    | false =>
      rw [List.takeWhile_cons_of_neg (by simp [hc]),
        if_pos (show ([] : List Char).length = 0 from rfl)]
      show Option.map (fun r => (r.1 + 1, r.2 + 1)) (searchAux _ cs) = _
      rw [ih]
      rw [List.findIdx?_cons, if_neg (by simp [hc]), List.findIdx?_succ]
      cases hidx : cs.findIdx? s with
      | none => rfl
      | some i =>
        show some (i + 1, i + ((cs.drop i).takeWhile s).length + 1) = _
        show _ = some (i + 1, (i + 1) + (((c :: cs).drop (i + 1)).takeWhile s).length)
        rw [List.drop_succ_cons]
        have harith : i + ((cs.drop i).takeWhile s).length + 1 =
            (i + 1) + ((cs.drop i).takeWhile s).length := by omega
        rw [harith]

theorem searchAux_one (s : Char → Bool) :
    ∀ l : List Char,
      searchAux [Piece.cls s 1 (some 1)] l =
        match l.findIdx? s with
        | none => none
        | some i => some (i, i + 1) := by
  intro l
  induction l with
  | nil =>
    rw [searchAux, matchPieces_one]
    simp
  | cons c cs ih =>
    rw [searchAux]
    cases hc : s c with
    | true =>
      have hm : matchPieces [Piece.cls s 1 (some 1)] (c :: cs) = some 1 := by
        rw [matchPieces_one]
        simp [hc]
      rw [hm, List.findIdx?_cons, if_pos hc]
    | false =>
      have hm : matchPieces [Piece.cls s 1 (some 1)] (c :: cs) = none := by
        rw [matchPieces_one]
        simp [hc]
      rw [hm]
      show Option.map (fun r => (r.1 + 1, r.2 + 1)) (searchAux _ cs) = _
      rw [ih, List.findIdx?_cons, if_neg (by simp [hc]), List.findIdx?_succ]
      cases hidx : cs.findIdx? s with
      | none => simp
      | some i => simp

/-- The forward-expansion behaviour stated in terms of first-index and
maximal-run primitives (the claim's wording): the end extends to cover the
first run of numeric/hyphen/kanji-numeral characters found anywhere in the
30-character window after the match (skipping unrelated characters before
it), then further to just before the next punctuation/newline delimiter in
the window if one follows the run, and never exceeds the text length. -/
def forwardExpandSpec (text : List Char) (e res : Nat) : Prop :=
  let post := (text.drop e).take 30
  res ≤ text.length ∧
  (match post.findIdx? expandNumChar with
   | none => res = e
   | some i =>
     let runLen := ((post.drop i).takeWhile expandNumChar).length
     match (post.drop (i + runLen)).findIdx? delimChar with
     | none => res = e + i + runLen
     | some d => res = e + i + runLen + d)

/-- C10: forward span expansion behaves as `forwardExpandSpec` describes. -/
theorem expand_end_first_numeric_run (text : List Char) (s e : Nat)
    (he : e ≤ text.length) :
    forwardExpandSpec text e
      (JapaneseAddressRecognizer.expandAddressSpan text s e).2 := by
  unfold forwardExpandSpec JapaneseAddressRecognizer.expandAddressSpan
  simp only []
  set post := (text.drop e).take 30 with hpostdef
  have hplen : post.length ≤ text.length - e := by
    rw [hpostdef, List.length_take, List.length_drop]
    omega
  rw [searchAux_run expandNumChar post]
  cases hidx : post.findIdx? expandNumChar with
  | none => exact ⟨he, rfl⟩
  | some i =>
    dsimp only
    have hi : i < post.length :=
      (List.findIdx?_eq_some_iff_findIdx_eq.mp hidx).1
    set L := ((post.drop i).takeWhile expandNumChar).length with hLdef
    have hL : L ≤ post.length - i := by
      rw [hLdef]
      calc ((post.drop i).takeWhile expandNumChar).length
          ≤ (post.drop i).length := (List.takeWhile_sublist _).length_le
        _ = post.length - i := List.length_drop _ _
    rw [searchAux_one delimChar (post.drop (i + L))]
    cases hdel : (post.drop (i + L)).findIdx? delimChar with
    | none =>
      dsimp only
      have : min text.length (e + (i + L)) = e + i + L := by omega
      rw [this]
      exact ⟨by omega, rfl⟩
    | some d =>
      dsimp only
      have hd : d < (post.drop (i + L)).length :=
        (List.findIdx?_eq_some_iff_findIdx_eq.mp hdel).1
      rw [List.length_drop] at hd
      have : min text.length (e + (i + L) + d) = e + i + L + d := by omega
      rw [this]
      exact ⟨by omega, rfl⟩

/-- The C10 witness text: `区1-2、あ`, expansion from `e = 1`. -/
def tC10 : List Char := "区1-2、あ".data

/-- C10 witness: on `tC10` with `e = 1` the run `1-2` is covered and the end
stops just before the delimiter `、`. -/
theorem expand_end_first_numeric_run_witness :
    1 ≤ tC10.length ∧ forwardExpandSpec tC10 1
      (JapaneseAddressRecognizer.expandAddressSpan tC10 0 1).2 :=
  ⟨by decide, expand_end_first_numeric_run tC10 0 1 (by decide)⟩
